import Mathlib

/-!
Verification of the SOME/IP middleware core (`fusion-hawking`), as a shallow
embedding in Lean 4.

Byte sequences are modelled as `List Nat` (each element a byte value); machine
integers are `Nat` with explicit `% 2^w` where Rust's wrapping arithmetic
matters.  Stateful Rust code becomes explicit state passing; `HashMap` becomes
an association list with first-match lookup; `BTreeMap` becomes a
key-sorted association list; `Result` becomes `Except String`.

The embedded functions follow the source files:
  * `src/codec/tp.rs`      — TP sub-header, `segment_payload`,
    `reassemble_payload`, `TpReassembler::process_segment`;
  * `src/codec/header.rs`  — `SomeIpHeader` serialize/deserialize/new;
  * `src/codec/session.rs` — `SessionIdManager::next_session_id`;
  * `src/runtime/mod.rs`   — the session counter and the TP send path of
    `send_request_and_wait`;
  * `src/sd/machine.rs`    — `ServiceDiscovery::handle_incoming_packet`,
    `get_service`;
  * `src/transport/tcp.rs` — `someip_message_len` and the framed receive.
-/

namespace FusionHawking

/-! ## TP sub-header and segmentation (`src/codec/tp.rs`) -/

/-- SOME/IP-TP sub-header: a byte offset (stored on the wire in 16-byte
units) and a More-Segments flag. -/
structure TpHeader where
  offset : Nat
  more_segments : Bool
deriving DecidableEq, Repr

/-- One iteration-per-fuel-unit embedding of the `while cursor < total_len`
loop of `segment_payload`.  `none` means the fuel ran out before the loop
finished, i.e. the Rust loop has not terminated within `fuel` iterations.
The stored offset is `TpHeader::new(cursor as u32, more)`: the `usize`
cursor truncated to u32, hence `% 2^32`. -/
def segLoop (payload : List Nat) (alignedMax : Nat) :
    Nat → Nat → Option (List (TpHeader × List Nat))
  | 0, _ => none
  | fuel + 1, cursor =>
    if cursor < payload.length then
      let remaining := payload.length - cursor
      let chunkLen := if remaining > alignedMax then alignedMax else remaining
      let more := decide (cursor + chunkLen < payload.length)
      let chunk := (payload.drop cursor).take chunkLen
      match segLoop payload alignedMax fuel (cursor + chunkLen) with
      | none => none
      | some rest => some ((TpHeader.mk (cursor % 4294967296) more, chunk) :: rest)
    else
      some []

/-- `segment_payload` from `src/codec/tp.rs`: rounds the per-segment maximum
down to a multiple of 16, special-cases the empty payload, and otherwise runs
the slicing loop (here with explicit fuel). -/
def segment_payload (payload : List Nat) (maxPayloadPerSegment : Nat)
    (fuel : Nat) : Option (List (TpHeader × List Nat)) :=
  let alignedMax := maxPayloadPerSegment / 16 * 16
  if payload.length = 0 then
    some [(TpHeader.mk 0 false, [])]
  else
    segLoop payload alignedMax fuel 0

/-- Total variant of the slicing loop, used to state what `segLoop` returns
when it does terminate. -/
def segChunks (payload : List Nat) (alignedMax : Nat) :
    Nat → Nat → List (TpHeader × List Nat)
  | 0, _ => []
  | fuel + 1, cursor =>
    if cursor < payload.length then
      let remaining := payload.length - cursor
      let chunkLen := if remaining > alignedMax then alignedMax else remaining
      let more := decide (cursor + chunkLen < payload.length)
      let chunk := (payload.drop cursor).take chunkLen
      (TpHeader.mk (cursor % 4294967296) more, chunk)
        :: segChunks payload alignedMax fuel (cursor + chunkLen)
    else
      []

/-- `BTreeMap::insert` on a key-sorted association list: keeps the list
sorted by key, replacing the value when the key is already present. -/
def btreeInsert {α : Type} (k : Nat) (v : α) :
    List (Nat × α) → List (Nat × α)
  | [] => [(k, v)]
  | (k', v') :: rest =>
    if k < k' then (k, v) :: (k', v') :: rest
    else if k = k' then (k, v) :: rest
    else (k', v') :: btreeInsert k v rest

/-- Builds the `BTreeMap<u32, Vec<u8>>` that the tests feed to
`reassemble_payload`: insert every produced segment keyed by its offset. -/
def btreeOfSegments (segs : List (TpHeader × List Nat)) : List (Nat × List Nat) :=
  segs.foldl (fun m s => btreeInsert s.1.offset s.2 m) []

/-- The in-order scan of `reassemble_payload`: checks that each stored offset
equals the running expected offset and concatenates the data.  The expected
offset is a u32 advanced by `data.len() as u32`, so both the cast and the
addition wrap at `2^32`. -/
def reassembleGo : List (Nat × List Nat) → Nat → List Nat → Option (List Nat)
  | [], _, acc => some acc
  | (offset, data) :: rest, nextOffset, acc =>
    if offset ≠ nextOffset then none
    else reassembleGo rest
      ((nextOffset + data.length % 4294967296) % 4294967296) (acc ++ data)

/-- `reassemble_payload` from `src/codec/tp.rs` over a key-sorted offset map
(the `BTreeMap` iteration order). `none` is the
`Err("Missing segment / Gap in offsets")` case. -/
def reassemble_payload (segments : List (Nat × List Nat)) : Option (List Nat) :=
  reassembleGo segments 0 []

/-! ### Basic facts about the slicing loop -/

theorem segChunks_of_ge (p : List Nat) (a fuel cursor : Nat)
    (h : ¬ cursor < p.length) : segChunks p a fuel cursor = [] := by
  cases fuel with
  | zero => rfl
  | succ n => simp [segChunks, h]

theorem segChunks_ne_nil (p : List Nat) (a fuel cursor : Nat)
    (hc : cursor < p.length) (hf : p.length - cursor < fuel) :
    segChunks p a fuel cursor ≠ [] := by
  cases fuel with
  | zero => omega
  | succ n => simp [segChunks, hc]

/-- With a positive aligned maximum and enough fuel, the fuelled loop
terminates and returns the total chunk list. -/
theorem segLoop_eq_segChunks (p : List Nat) (a : Nat) (ha : 1 ≤ a) :
    ∀ fuel cursor, p.length - cursor < fuel →
      segLoop p a fuel cursor = some (segChunks p a fuel cursor) := by
  intro fuel
  induction fuel with
  | zero => intro cursor h; omega
  | succ n ih =>
    intro cursor h
    by_cases hc : cursor < p.length
    · have hrec := ih (cursor + (if p.length - cursor > a then a else p.length - cursor))
        (by split <;> omega)
      simp only [segLoop, segChunks, if_pos hc]
      rw [hrec]
    · simp [segLoop, segChunks, hc]

/-- The chunks concatenate back to the suffix of the payload the loop
started from. -/
theorem segChunks_flatten (p : List Nat) (a : Nat) (ha : 1 ≤ a) :
    ∀ fuel cursor, p.length - cursor < fuel →
      ((segChunks p a fuel cursor).map Prod.snd).flatten = p.drop cursor := by
  intro fuel
  induction fuel with
  | zero => intro cursor h; omega
  | succ n ih =>
    intro cursor h
    by_cases hc : cursor < p.length
    · simp only [segChunks, if_pos hc, List.map_cons, List.flatten]
      rw [ih (cursor + (if p.length - cursor > a then a else p.length - cursor))
        (by split <;> omega)]
      rw [show p.drop (cursor + (if p.length - cursor > a then a else p.length - cursor))
            = (p.drop cursor).drop (if p.length - cursor > a then a else p.length - cursor) by
          rw [List.drop_drop]]
      exact List.take_append_drop _ _
    · rw [segChunks_of_ge p a _ _ hc]
      simp [List.drop_eq_nil_of_le (by omega : p.length ≤ cursor)]

/-- Scanning the produced chunks (as an offset-keyed list, in production
order) from the starting cursor reassembles the payload suffix.  Requires
the payload to be shorter than `2^32` bytes so that neither the u32 offset
truncation nor the wrapping expected-offset addition fires. -/
theorem reassembleGo_segChunks (p : List Nat) (a : Nat) (ha : 1 ≤ a)
    (hbound : p.length < 4294967296) :
    ∀ fuel cursor acc, p.length - cursor < fuel →
      reassembleGo ((segChunks p a fuel cursor).map (fun s => (s.1.offset, s.2)))
        cursor acc = some (acc ++ p.drop cursor) := by
  intro fuel
  induction fuel with
  | zero => intro cursor acc h; omega
  | succ n ih =>
    intro cursor acc h
    by_cases hc : cursor < p.length
    · have hlen : ((p.drop cursor).take
          (if p.length - cursor > a then a else p.length - cursor)).length
          = (if p.length - cursor > a then a else p.length - cursor) := by
        rw [List.length_take, List.length_drop]
        split <;> omega
      have hmodc : cursor % 4294967296 = cursor := Nat.mod_eq_of_lt (by omega)
      have hmodl : (if p.length - cursor > a then a else p.length - cursor)
          % 4294967296
          = (if p.length - cursor > a then a else p.length - cursor) := by
        apply Nat.mod_eq_of_lt
        split <;> omega
      have hmods : (cursor + (if p.length - cursor > a then a
            else p.length - cursor)) % 4294967296
          = cursor + (if p.length - cursor > a then a else p.length - cursor) := by
        apply Nat.mod_eq_of_lt
        split <;> omega
      simp only [segChunks, if_pos hc, List.map_cons, reassembleGo, hmodc, ne_eq,
        not_true_eq_false, if_false, hlen, hmodl, hmods]
      rw [ih _ _ (by split <;> omega)]
      rw [List.append_assoc]
      rw [show (p.drop cursor).take (if p.length - cursor > a then a else p.length - cursor)
            ++ p.drop (cursor + (if p.length - cursor > a then a else p.length - cursor))
            = p.drop cursor by
        rw [show p.drop (cursor + (if p.length - cursor > a then a else p.length - cursor))
              = (p.drop cursor).drop (if p.length - cursor > a then a else p.length - cursor) by
            rw [List.drop_drop]]
        exact List.take_append_drop _ _]
    · rw [segChunks_of_ge p a _ _ hc]
      simp [reassembleGo, List.drop_eq_nil_of_le (by omega : p.length ≤ cursor)]

/-- Every chunk the loop produces starts at or after the starting cursor;
for payloads shorter than `2^32` bytes the u32 offset truncation is the
identity. -/
theorem segChunks_offset_ge (p : List Nat) (a : Nat)
    (hbound : p.length < 4294967296) :
    ∀ fuel cursor, ∀ s ∈ segChunks p a fuel cursor, cursor ≤ s.1.offset := by
  intro fuel
  induction fuel with
  | zero => intro cursor s hs; simp [segChunks] at hs
  | succ n ih =>
    intro cursor s hs
    by_cases hc : cursor < p.length
    · simp only [segChunks, if_pos hc, List.mem_cons] at hs
      rcases hs with h | h
      · subst h
        have hmodc : cursor % 4294967296 = cursor := Nat.mod_eq_of_lt (by omega)
        simp [hmodc]
      · exact Nat.le_trans (Nat.le_add_right _ _) (ih _ s h)
    · rw [segChunks_of_ge p a _ _ hc] at hs
      simp at hs

/-- The chunk offsets are strictly increasing in production order, for
payloads shorter than `2^32` bytes. -/
theorem segChunks_offset_pairwise (p : List Nat) (a : Nat) (ha : 1 ≤ a)
    (hbound : p.length < 4294967296) :
    ∀ fuel cursor, (segChunks p a fuel cursor).Pairwise
      (fun x y => x.1.offset < y.1.offset) := by
  intro fuel
  induction fuel with
  | zero => intro cursor; simp [segChunks]
  | succ n ih =>
    intro cursor
    by_cases hc : cursor < p.length
    · simp only [segChunks, if_pos hc, List.pairwise_cons]
      refine ⟨fun s hs => ?_, ih _⟩
      have h1 := segChunks_offset_ge p a hbound n _ s hs
      have h2 : 1 ≤ (if p.length - cursor > a then a else p.length - cursor) := by
        split <;> omega
      omega
    · rw [segChunks_of_ge p a _ _ hc]; simp

/-- Inserting a key larger than every key of a sorted association list
appends at the end. -/
theorem btreeInsert_append {α : Type} (k : Nat) (v : α) :
    ∀ m : List (Nat × α), (∀ kv ∈ m, kv.1 < k) →
      btreeInsert k v m = m ++ [(k, v)] := by
  intro m
  induction m with
  | nil => intro _; rfl
  | cons hd tl ih =>
    intro hlt
    have h1 : hd.1 < k := hlt hd (List.mem_cons_self _ _)
    simp only [btreeInsert]
    rw [if_neg (by omega), if_neg (by omega)]
    rw [ih (fun kv hkv => hlt kv (List.mem_cons_of_mem _ hkv))]
    rfl

/-- Folding `btreeInsert` over a list of segments whose offsets strictly
increase just appends them in order. -/
theorem btreeFold_append (segs : List (TpHeader × List Nat)) :
    ∀ m : List (Nat × List Nat),
      segs.Pairwise (fun x y => x.1.offset < y.1.offset) →
      (∀ kv ∈ m, ∀ s ∈ segs, kv.1 < s.1.offset) →
      segs.foldl (fun m s => btreeInsert s.1.offset s.2 m) m
        = m ++ segs.map (fun s => (s.1.offset, s.2)) := by
  induction segs with
  | nil => intro m _ _; simp
  | cons hd tl ih =>
    intro m hpair hbound
    simp only [List.foldl_cons]
    rw [btreeInsert_append hd.1.offset hd.2 m
      (fun kv hkv => hbound kv hkv hd (List.mem_cons_self _ _))]
    rw [List.pairwise_cons] at hpair
    rw [ih (m ++ [(hd.1.offset, hd.2)]) hpair.2 ?_]
    · simp
    · intro kv hkv s hs
      rcases List.mem_append.mp hkv with h | h
      · exact hbound kv h s (List.mem_cons_of_mem _ hs)
      · simp at h
        rw [h]
        exact hpair.1 s hs

/-- For strictly increasing offsets the segment-to-map fold is just the
projection to (offset, data) pairs. -/
theorem btreeOfSegments_eq (segs : List (TpHeader × List Nat))
    (hpair : segs.Pairwise (fun x y => x.1.offset < y.1.offset)) :
    btreeOfSegments segs = segs.map (fun s => (s.1.offset, s.2)) := by
  have := btreeFold_append segs [] hpair (by intro kv hkv; simp at hkv)
  simpa [btreeOfSegments] using this

/-- Every chunk except the last is exactly `alignedMax` bytes and carries
More=1. -/
theorem segChunks_dropLast (p : List Nat) (a : Nat) (ha : 1 ≤ a) :
    ∀ fuel cursor, p.length - cursor < fuel →
      ∀ s ∈ (segChunks p a fuel cursor).dropLast,
        s.2.length = a ∧ s.1.more_segments = true := by
  intro fuel
  induction fuel with
  | zero => intro cursor h; omega
  | succ n ih =>
    intro cursor h s hs
    by_cases hc : cursor < p.length
    · simp only [segChunks, if_pos hc] at hs
      by_cases hra : p.length - cursor > a
      · rw [if_pos hra] at hs
        have hmore : cursor + a < p.length := by omega
        have hne := segChunks_ne_nil p a n (cursor + a) hmore (by omega)
        cases hrest : segChunks p a n (cursor + a) with
        | nil => exact absurd hrest hne
        | cons r rs =>
          rw [hrest, List.dropLast_cons₂, List.mem_cons] at hs
          rcases hs with hhd | htl
          · subst hhd
            refine ⟨?_, ?_⟩
            · simp only [List.length_take, List.length_drop]
              omega
            · simp only [decide_eq_true_eq]
              exact hmore
          · have htail := ih (cursor + a) (by omega) s
            rw [hrest] at htail
            exact htail htl
      · rw [if_neg hra] at hs
        rw [segChunks_of_ge p a n (cursor + (p.length - cursor)) (by omega)] at hs
        simp at hs
    · rw [segChunks_of_ge p a _ _ hc] at hs
      simp at hs

/-- The last chunk the loop produces carries More=0. -/
theorem segChunks_getLast (p : List Nat) (a : Nat) (ha : 1 ≤ a) :
    ∀ fuel cursor, cursor < p.length → p.length - cursor < fuel →
      ∀ s, (segChunks p a fuel cursor).getLast? = some s →
        s.1.more_segments = false := by
  intro fuel
  induction fuel with
  | zero => intro cursor hc h; omega
  | succ n ih =>
    intro cursor hc h s hs
    simp only [segChunks, if_pos hc] at hs
    by_cases hra : p.length - cursor > a
    · rw [if_pos hra] at hs
      have hmore : cursor + a < p.length := by omega
      have hne := segChunks_ne_nil p a n (cursor + a) hmore (by omega)
      cases hrest : segChunks p a n (cursor + a) with
      | nil => exact absurd hrest hne
      | cons r rs =>
        rw [hrest, List.getLast?_cons_cons] at hs
        have htail := ih (cursor + a) hmore (by omega) s
        rw [hrest] at htail
        exact htail hs
    · rw [if_neg hra] at hs
      rw [segChunks_of_ge p a n (cursor + (p.length - cursor)) (by omega)] at hs
      simp only [List.getLast?_singleton, Option.some.injEq] at hs
      rw [← hs]
      have hnm : ¬ (cursor + (p.length - cursor) < p.length) := by omega
      simp [hnm]

/-- C2 (amended): for every payload `p` SHORTER THAN `2^32` BYTES and every
`max_segment_payload ≥ 16`, feeding the segments of `segment_payload(p, max)`
into `reassemble_payload` (through the offset-keyed map) yields exactly `p`;
every segment except the last has payload length `max` aligned down to the
nearest multiple of 16 (a positive multiple of 16) with More=1; the last
segment has More=0; an empty payload produces exactly one zero-length
segment with More=0.  The length bound is necessary: the source truncates
the segment offset with `cursor as u32` and advances the reassembly offset
in wrapping u32 arithmetic, so payloads of `2^32` bytes or more collide. -/
theorem segment_reassemble_roundtrip (p : List Nat) (maxSeg : Nat)
    (hmax : 16 ≤ maxSeg) (hlen32 : p.length < 4294967296) :
    ∃ segs, segment_payload p maxSeg (p.length + 1) = some segs ∧
      reassemble_payload (btreeOfSegments segs) = some p ∧
      (∀ s ∈ segs.dropLast,
        s.2.length = maxSeg / 16 * 16 ∧ 0 < s.2.length ∧
        s.2.length % 16 = 0 ∧ s.1.more_segments = true) ∧
      (∃ lastSeg, segs.getLast? = some lastSeg ∧
        lastSeg.1.more_segments = false) ∧
      (p = [] → segs = [(TpHeader.mk 0 false, [])]) := by
  have ha : 1 ≤ maxSeg / 16 * 16 := by omega
  by_cases hp : p.length = 0
  · refine ⟨[(TpHeader.mk 0 false, [])], ?_, ?_, ?_, ?_, ?_⟩
    · simp [segment_payload, hp]
    · have hpnil : p = [] := List.length_eq_zero.mp hp
      subst hpnil
      rfl
    · intro s hs; simp at hs
    · exact ⟨(TpHeader.mk 0 false, []), rfl, rfl⟩
    · intro _; rfl
  · have hm : p.length - 0 < p.length + 1 := by omega
    refine ⟨segChunks p (maxSeg / 16 * 16) (p.length + 1) 0, ?_, ?_, ?_, ?_, ?_⟩
    · simp only [segment_payload, if_neg hp]
      exact segLoop_eq_segChunks p (maxSeg / 16 * 16) ha (p.length + 1) 0 hm
    · rw [btreeOfSegments_eq (segChunks p (maxSeg / 16 * 16) (p.length + 1) 0)
        (segChunks_offset_pairwise p (maxSeg / 16 * 16) ha hlen32 (p.length + 1) 0)]
      unfold reassemble_payload
      have := reassembleGo_segChunks p (maxSeg / 16 * 16) ha hlen32 (p.length + 1) 0 [] hm
      simpa using this
    · intro s hs
      have h1 := segChunks_dropLast p (maxSeg / 16 * 16) ha (p.length + 1) 0 hm s hs
      refine ⟨h1.1, ?_, ?_, h1.2⟩
      · omega
      · rw [h1.1]; exact Nat.mul_mod_left _ 16
    · have hne := segChunks_ne_nil p (maxSeg / 16 * 16) (p.length + 1) 0 (by omega) hm
      have hsome : (segChunks p (maxSeg / 16 * 16) (p.length + 1) 0).getLast?.isSome := by
        rw [List.getLast?_isSome]; exact hne
      obtain ⟨lastSeg, hl⟩ := Option.isSome_iff_exists.mp hsome
      exact ⟨lastSeg, hl, segChunks_getLast p (maxSeg / 16 * 16) ha (p.length + 1) 0 (by omega) hm lastSeg hl⟩
    · intro hpe
      rw [hpe] at hp
      simp at hp

/-- Closed witness for the round-trip theorem at a concrete payload. -/
theorem segment_reassemble_roundtrip_witness :
    16 ≤ 16 ∧ ([1, 2, 3] : List Nat).length < 4294967296 ∧
    (∃ segs, segment_payload [1, 2, 3] 16 ([1, 2, 3].length + 1) = some segs ∧
      reassemble_payload (btreeOfSegments segs) = some [1, 2, 3] ∧
      (∀ s ∈ segs.dropLast,
        s.2.length = 16 / 16 * 16 ∧ 0 < s.2.length ∧
        s.2.length % 16 = 0 ∧ s.1.more_segments = true) ∧
      (∃ lastSeg, segs.getLast? = some lastSeg ∧
        lastSeg.1.more_segments = false) ∧
      ([1, 2, 3] = ([] : List Nat) → segs = [(TpHeader.mk 0 false, [])])) :=
  ⟨by decide, by decide,
    segment_reassemble_roundtrip [1, 2, 3] 16 (by decide) (by decide)⟩

/-- With aligned maximum 0 the loop never advances the cursor: it runs out
of any amount of fuel. -/
theorem segLoop_zero_none (p : List Nat) :
    ∀ fuel cursor, cursor < p.length → segLoop p 0 fuel cursor = none := by
  intro fuel
  induction fuel with
  | zero => intro cursor _; rfl
  | succ n ih =>
    intro cursor hc
    simp only [segLoop, if_pos hc]
    have h0 : (if p.length - cursor > 0 then 0 else p.length - cursor) = 0 := by
      split <;> omega
    rw [h0]
    rw [show cursor + 0 = cursor from rfl, ih cursor hc]

/-- C9: for a non-empty payload and `max_segment_payload < 16` the aligned
maximum rounds down to 0, each iteration takes a zero-length chunk without
advancing the cursor, and `segment_payload` never terminates: it returns
`none` for every finite amount of fuel. -/
theorem segment_payload_diverges_below_16 (p : List Nat) (maxSeg fuel : Nat)
    (hp : p ≠ []) (hmax : maxSeg < 16) :
    segment_payload p maxSeg fuel = none := by
  have ha : maxSeg / 16 * 16 = 0 := by omega
  have hlen : p.length ≠ 0 := by
    intro h
    exact hp (List.length_eq_zero.mp h)
  simp only [segment_payload, if_neg hlen, ha]
  exact segLoop_zero_none p fuel 0 (by omega)

/-- Closed witness: a one-byte payload with `max = 15` exhausts any fuel. -/
theorem segment_payload_diverges_below_16_witness :
    ([7] : List Nat) ≠ [] ∧ 15 < 16 ∧ segment_payload [7] 15 5 = none :=
  ⟨by decide, by decide, segment_payload_diverges_below_16 [7] 15 5 (by decide) (by decide)⟩

/-! ## SOME/IP message header (`src/codec/header.rs`) -/

/-- The 16-byte SOME/IP message header.  Fields are machine integers
(u16/u32/u8 in the source) modelled as `Nat`. -/
structure SomeIpHeader where
  service_id : Nat
  method_id : Nat
  length : Nat
  client_id : Nat
  session_id : Nat
  protocol_version : Nat
  interface_version : Nat
  message_type : Nat
  return_code : Nat
deriving DecidableEq, Repr

/-- Reads a big-endian u32 out of four consecutive bytes of a buffer.  This
is `u32::from_be_bytes(buffer[i..i+4])`. -/
def readU32be (buf : List Nat) (i : Nat) : Nat :=
  16777216 * buf.getD i 0 + 65536 * buf.getD (i + 1) 0 +
    256 * buf.getD (i + 2) 0 + buf.getD (i + 3) 0

/-- Reads a big-endian u16 out of two consecutive bytes of a buffer. -/
def readU16be (buf : List Nat) (i : Nat) : Nat :=
  256 * buf.getD i 0 + buf.getD (i + 1) 0

/-- `SomeIpHeader::serialize`: the 16-byte big-endian layout
service, method, length, client, session, proto, iface, type, return. -/
def SomeIpHeader.serialize (h : SomeIpHeader) : List Nat :=
  [h.service_id / 256 % 256, h.service_id % 256,
   h.method_id / 256 % 256, h.method_id % 256,
   h.length / 16777216 % 256, h.length / 65536 % 256,
   h.length / 256 % 256, h.length % 256,
   h.client_id / 256 % 256, h.client_id % 256,
   h.session_id / 256 % 256, h.session_id % 256,
   h.protocol_version % 256, h.interface_version % 256,
   h.message_type % 256, h.return_code % 256]

/-- `SomeIpHeader::deserialize`: fails when fewer than 16 bytes are
available, otherwise reads the big-endian fields back. -/
def SomeIpHeader.deserialize (buf : List Nat) : Except String SomeIpHeader :=
  if buf.length < 16 then
    Except.error "Buffer too small for SOME/IP header"
  else
    Except.ok
      { service_id := readU16be buf 0
        method_id := readU16be buf 2
        length := readU32be buf 4
        client_id := readU16be buf 8
        session_id := readU16be buf 10
        protocol_version := buf.getD 12 0
        interface_version := buf.getD 13 0
        message_type := buf.getD 14 0
        return_code := buf.getD 15 0 }

/-- `SomeIpHeader::with_interface_version`: builds a header whose length
field is `payload_len + 8` (u32 arithmetic, hence mod `2^32`), protocol
version 1 and return code 0. -/
def SomeIpHeader.with_interface_version (service_id method_id client_id
    session_id message_type payload_len interface_version : Nat) : SomeIpHeader :=
  { service_id := service_id
    method_id := method_id
    length := (payload_len + 8) % 4294967296
    client_id := client_id
    session_id := session_id
    protocol_version := 1
    interface_version := interface_version
    message_type := message_type
    return_code := 0 }

/-- `SomeIpHeader::new`: `with_interface_version` at the default interface
version 1. -/
def SomeIpHeader.new (service_id method_id client_id session_id message_type
    payload_len : Nat) : SomeIpHeader :=
  SomeIpHeader.with_interface_version service_id method_id client_id
    session_id message_type payload_len 1

/-- C3 (amended): the header codec round-trips bit-for-bit on every header
whose fields are in their machine-integer ranges, and for a header built by
`new` with payload length `p` the bytes 4..8 of the serialized form read,
big-endian, `(p + 8) mod 2^32` — which equals `p + 8` whenever `p + 8`
fits in a u32. -/
theorem header_roundtrip_and_length_field (h : SomeIpHeader)
    (h1 : h.service_id < 65536) (h2 : h.method_id < 65536)
    (h3 : h.length < 4294967296) (h4 : h.client_id < 65536)
    (h5 : h.session_id < 65536) (h6 : h.protocol_version < 256)
    (h7 : h.interface_version < 256) (h8 : h.message_type < 256)
    (h9 : h.return_code < 256)
    (sid mid cid ssid mt plen : Nat) :
    SomeIpHeader.deserialize (SomeIpHeader.serialize h) = Except.ok h ∧
    readU32be (SomeIpHeader.serialize
      (SomeIpHeader.new sid mid cid ssid mt plen)) 4 = (plen + 8) % 4294967296 ∧
    (plen + 8 < 4294967296 →
      readU32be (SomeIpHeader.serialize
        (SomeIpHeader.new sid mid cid ssid mt plen)) 4 = plen + 8) := by
  refine ⟨?_, ?_, ?_⟩
  · obtain ⟨sv, me, le, cl, se, pv, iv, mt', rc⟩ := h
    simp only at h1 h2 h3 h4 h5 h6 h7 h8 h9
    simp only [SomeIpHeader.serialize, SomeIpHeader.deserialize, readU16be,
      readU32be, List.getD, List.length_cons, List.length_nil, List.get?,
      SomeIpHeader.mk.injEq]
    norm_num
    omega
  · simp only [SomeIpHeader.new, SomeIpHeader.with_interface_version,
      SomeIpHeader.serialize, readU32be, List.getD, List.get?, Option.getD_some]
    omega
  · intro hlt
    simp only [SomeIpHeader.new, SomeIpHeader.with_interface_version,
      SomeIpHeader.serialize, readU32be, List.getD, List.get?, Option.getD_some]
    omega

/-- Closed witness: the round trip at the concrete header of the spec's
codec scenario (service 0x1234, method 0x5678, payload length 100, so
length field 108). -/
theorem header_roundtrip_witness :
    SomeIpHeader.deserialize (SomeIpHeader.serialize
      (SomeIpHeader.mk 0x1234 0x5678 108 1 2 1 1 0 0)) =
      Except.ok (SomeIpHeader.mk 0x1234 0x5678 108 1 2 1 1 0 0) ∧
    readU32be (SomeIpHeader.serialize (SomeIpHeader.new 0x1234 0x5678 1 2 0 100)) 4
      = (100 + 8) % 4294967296 ∧
    (100 + 8 < 4294967296 →
      readU32be (SomeIpHeader.serialize (SomeIpHeader.new 0x1234 0x5678 1 2 0 100)) 4
        = 100 + 8) :=
  header_roundtrip_and_length_field (SomeIpHeader.mk 0x1234 0x5678 108 1 2 1 1 0 0)
    (by decide) (by decide) (by decide) (by decide) (by decide) (by decide)
    (by decide) (by decide) (by decide) 0x1234 0x5678 1 2 0 100

/-- C3 counterexample: `new` computes the u32 length field with wrapping
arithmetic, so at payload length `2^32 - 1` the bytes 4..8 read 7, not
`p + 8`. -/
theorem header_length_field_overflow_counterexample :
    readU32be (SomeIpHeader.serialize
      (SomeIpHeader.new 0 0 0 0 0 4294967295)) 4 = 7 ∧
    (7 : Nat) ≠ 4294967295 + 8 := by
  constructor
  · rfl
  · decide

/-! ## Session-id allocation (`src/runtime/mod.rs` and `src/codec/session.rs`) -/

/-- The session counter of `SomeIpRuntime::send_request_and_wait`: the map
entry for `(service_id, method_id)` defaults to 1, the drawn value is the
current entry, and the stored value becomes `1` after `0xFFFF`, else
`val + 1`. -/
def runtime_next_session (counters : (Nat × Nat) → Option Nat)
    (service_id method_id : Nat) : Nat × ((Nat × Nat) → Option Nat) :=
  let val := (counters (service_id, method_id)).getD 1
  let next := if val = 0xFFFF then 1 else val + 1
  (val, fun k => if k = (service_id, method_id) then some next else counters k)

/-- `SessionIdManager::next_session_id`: the stored counter is the NEXT id
to hand out; `fetch_add` wraps at `2^16` and a wrapped-to-0 counter is reset
to 1; a missing entry hands out 1 and stores 2. -/
def next_session_id (counters : (Nat × Nat) → Option Nat)
    (service_id method_id : Nat) : Nat × ((Nat × Nat) → Option Nat) :=
  match counters (service_id, method_id) with
  | some c =>
    let incremented := (c + 1) % 65536
    let stored := if incremented = 0 then 1 else incremented
    (c, fun k => if k = (service_id, method_id) then some stored else counters k)
  | none =>
    (1, fun k => if k = (service_id, method_id) then some 2 else counters k)

/-- Counter state after `n` consecutive runtime allocations for a fixed
pair, starting from the empty map. -/
def runtimeStateAfter (service_id method_id : Nat) : Nat → ((Nat × Nat) → Option Nat)
  | 0 => fun _ => none
  | n + 1 => (runtime_next_session (runtimeStateAfter service_id method_id n)
      service_id method_id).2

/-- The id drawn by the `(n+1)`-st runtime allocation (0-indexed `n`). -/
def runtimeSessionSeq (service_id method_id n : Nat) : Nat :=
  (runtime_next_session (runtimeStateAfter service_id method_id n)
    service_id method_id).1

/-- Counter state after `n` consecutive `SessionIdManager` allocations for a
fixed pair, starting from the empty map. -/
def managerStateAfter (service_id method_id : Nat) : Nat → ((Nat × Nat) → Option Nat)
  | 0 => fun _ => none
  | n + 1 => (next_session_id (managerStateAfter service_id method_id n)
      service_id method_id).2

/-- The id drawn by the `(n+1)`-st `SessionIdManager` allocation. -/
def managerSessionSeq (service_id method_id n : Nat) : Nat :=
  (next_session_id (managerStateAfter service_id method_id n)
    service_id method_id).1

theorem runtimeStateAfter_closed (sid mid : Nat) :
    ∀ n, runtimeStateAfter sid mid n (sid, mid)
      = if n = 0 then none else some (n % 65535 + 1) := by
  intro n
  induction n with
  | zero => rfl
  | succ m ih =>
    rcases Nat.eq_zero_or_pos m with hm | hm
    · subst hm
      simp [runtimeStateAfter, runtime_next_session]
    · have hsome : runtimeStateAfter sid mid m (sid, mid) = some (m % 65535 + 1) := by
        rw [ih, if_neg (by omega)]
      simp only [runtimeStateAfter, runtime_next_session, hsome, Option.getD_some,
        eq_self_iff_true, if_true]
      rw [if_neg (by omega : ¬ m + 1 = 0)]
      congr 1
      by_cases hw : m % 65535 + 1 = 65535
      · rw [if_pos (by omega)]
        omega
      · rw [if_neg (by omega)]
        omega

theorem managerStateAfter_closed (sid mid : Nat) :
    ∀ n, managerStateAfter sid mid n (sid, mid)
      = if n = 0 then none else some (n % 65535 + 1) := by
  intro n
  induction n with
  | zero => rfl
  | succ m ih =>
    rcases Nat.eq_zero_or_pos m with hm | hm
    · subst hm
      have h0 : managerStateAfter sid mid 0 (sid, mid) = none := rfl
      simp [managerStateAfter, next_session_id, h0]
    · have hsome : managerStateAfter sid mid m (sid, mid) = some (m % 65535 + 1) := by
        rw [ih, if_neg (by omega)]
      simp only [managerStateAfter, next_session_id, hsome, eq_self_iff_true, if_true]
      rw [if_neg (by omega : ¬ m + 1 = 0)]
      congr 1
      by_cases hw : (m % 65535 + 1 + 1) % 65536 = 0
      · rw [if_pos hw]
        omega
      · rw [if_neg hw]
        omega

/-- C4: for a fixed (service-id, method-id), both session-id allocators (the
runtime counter in `send_request_and_wait` and
`SessionIdManager::next_session_id`) produce the sequence
`n % 0xFFFF + 1`: the first id is 1, each id is the predecessor plus one
except that 0xFFFF wraps back to 1, no id is 0, and every id lies in
`1..=0xFFFF`. -/
theorem session_id_sequence (sid mid n : Nat) :
    runtimeSessionSeq sid mid n = n % 65535 + 1 ∧
    managerSessionSeq sid mid n = n % 65535 + 1 ∧
    runtimeSessionSeq sid mid 0 = 1 ∧
    runtimeSessionSeq sid mid (n + 1)
      = (if runtimeSessionSeq sid mid n = 0xFFFF then 1
         else runtimeSessionSeq sid mid n + 1) ∧
    runtimeSessionSeq sid mid n ≠ 0 ∧
    1 ≤ runtimeSessionSeq sid mid n ∧ runtimeSessionSeq sid mid n ≤ 0xFFFF := by
  have hrt : ∀ k, runtimeSessionSeq sid mid k = k % 65535 + 1 := by
    intro k
    unfold runtimeSessionSeq
    rw [runtime_next_session, runtimeStateAfter_closed sid mid k]
    rcases Nat.eq_zero_or_pos k with hk | hk
    · subst hk; rfl
    · rw [if_neg (by omega)]
      rfl
  have hmg : managerSessionSeq sid mid n = n % 65535 + 1 := by
    unfold managerSessionSeq
    rw [next_session_id.eq_def, managerStateAfter_closed sid mid n]
    rcases Nat.eq_zero_or_pos n with hk | hk
    · subst hk; rfl
    · rw [if_neg (by omega)]
  have hmod : n % 65535 < 65535 := Nat.mod_lt _ (by omega)
  refine ⟨hrt n, hmg, hrt 0, ?_, ?_, ?_, ?_⟩
  · rw [hrt n, hrt (n + 1)]
    by_cases hw : n % 65535 + 1 = 0xFFFF
    · rw [if_pos hw]
      omega
    · rw [if_neg hw]
      omega
  · rw [hrt n]
    omega
  · rw [hrt n]
    omega
  · rw [hrt n]
    omega

/-! ## Association-list maps (the shallow embedding of `HashMap`) -/

/-- `HashMap::get`: first match in the association list. -/
def lookupA {κ α : Type} [DecidableEq κ] : List (κ × α) → κ → Option α
  | [], _ => none
  | (k, v) :: rest, key => if k = key then some v else lookupA rest key

/-- `HashMap::remove`. -/
def removeA {κ α : Type} [DecidableEq κ] (key : κ) (m : List (κ × α)) :
    List (κ × α) :=
  m.filter (fun p => decide (p.1 ≠ key))

/-- `HashMap::insert`: replaces any existing binding for the key. -/
def insertA {κ α : Type} [DecidableEq κ] (key : κ) (v : α) (m : List (κ × α)) :
    List (κ × α) :=
  (key, v) :: removeA key m

theorem lookupA_removeA_self {κ α : Type} [DecidableEq κ] (key : κ)
    (m : List (κ × α)) : lookupA (removeA key m) key = none := by
  induction m with
  | nil => rfl
  | cons hd tl ih =>
    by_cases h : hd.1 = key
    · simp [removeA, h] at ih ⊢
      exact ih
    · simp only [removeA, List.filter_cons] at ih ⊢
      rw [if_pos (by simp [h])]
      simp only [lookupA, if_neg h]
      exact ih

theorem lookupA_removeA_ne {κ α : Type} [DecidableEq κ] (key k : κ)
    (m : List (κ × α)) (h : k ≠ key) :
    lookupA (removeA key m) k = lookupA m k := by
  induction m with
  | nil => rfl
  | cons hd tl ih =>
    by_cases hh : hd.1 = key
    · simp only [removeA, List.filter_cons] at ih ⊢
      rw [if_neg (by simp [hh])]
      rw [ih]
      have : hd.1 ≠ k := by rw [hh]; exact fun hk => h hk.symm
      simp [lookupA, this]
    · simp only [removeA, List.filter_cons] at ih ⊢
      rw [if_pos (by simp [hh])]
      simp only [lookupA]
      by_cases he : hd.1 = k
      · simp [he]
      · simp only [if_neg he]
        exact ih

theorem lookupA_insertA_self {κ α : Type} [DecidableEq κ] (key : κ) (v : α)
    (m : List (κ × α)) : lookupA (insertA key v m) key = some v := by
  simp [insertA, lookupA]

theorem lookupA_insertA_ne {κ α : Type} [DecidableEq κ] (key k : κ) (v : α)
    (m : List (κ × α)) (h : k ≠ key) :
    lookupA (insertA key v m) k = lookupA m k := by
  have hne : key ≠ k := fun hk => h hk.symm
  simp only [insertA, lookupA, if_neg hne]
  exact lookupA_removeA_ne key k m h

/-! ## TP reassembler (`TpReassembler` in `src/codec/tp.rs`) -/

/-- The reassembler state: `(message-id, request-id)` to an offset-sorted
map of `(data, more)` segments. -/
abbrev ReassemblerState :=
  List ((Nat × Nat) × List (Nat × (List Nat × Bool)))

/-- The completion scan of `process_segment`: walk the sorted segments,
fail on a gap, succeed at the first More=0 segment.  The expected offset is
a u32 advanced by `data.len() as u32`, wrapping at `2^32`. -/
def checkComplete : List (Nat × (List Nat × Bool)) → Nat → Bool
  | [], _ => false
  | (offset, (data, more)) :: rest, expected =>
    if offset ≠ expected then false
    else if more then
      checkComplete rest ((expected + data.length % 4294967296) % 4294967296)
    else true

/-- `TpReassembler::process_segment`: inserts the segment into the per-key
map (late arrivals overwrite), returns the concatenation of all stored
segments and evicts the key when the scan finds a continuous run ending in
More=0, and otherwise keeps the enlarged map.  Every path returns `Ok`. -/
def process_segment (st : ReassemblerState) (message_id request_id : Nat)
    (tp : TpHeader) (payload : List Nat) :
    Except String (Option (List Nat)) × ReassemblerState :=
  let key := (message_id, request_id)
  let segments := (lookupA st key).getD []
  let segments := btreeInsert tp.offset (payload, tp.more_segments) segments
  if (lookupA segments 0).isNone then
    (Except.ok none, insertA key segments st)
  else if checkComplete segments 0 then
    (Except.ok (some ((segments.map (fun s => s.2.1)).flatten)), removeA key st)
  else
    (Except.ok none, insertA key segments st)

/-- C1 (amended): `process_segment` enforces no per-key size bound and has
no error path: whatever is already buffered for the key, it returns `Ok`
and — while the run is incomplete — stores the inserted segment under the
key instead of evicting it. -/
theorem process_segment_never_errors (st : ReassemblerState)
    (message_id request_id : Nat) (tp : TpHeader) (payload : List Nat)
    (hincomplete : checkComplete
      (btreeInsert tp.offset (payload, tp.more_segments)
        ((lookupA st (message_id, request_id)).getD [])) 0 = false) :
    (∀ e, (process_segment st message_id request_id tp payload).1
      ≠ Except.error e) ∧
    lookupA (process_segment st message_id request_id tp payload).2
        (message_id, request_id)
      = some (btreeInsert tp.offset (payload, tp.more_segments)
          ((lookupA st (message_id, request_id)).getD [])) := by
  unfold process_segment
  by_cases h0 : (lookupA (btreeInsert tp.offset (payload, tp.more_segments)
      ((lookupA st (message_id, request_id)).getD [])) 0).isNone
  · simp only [h0, if_true]
    exact ⟨fun e => by simp, lookupA_insertA_self _ _ _⟩
  · simp only [h0, if_false, hincomplete]
    exact ⟨fun e => by simp, lookupA_insertA_self _ _ _⟩

/-- Closed witness for `process_segment_never_errors` at a small concrete
input. -/
theorem process_segment_never_errors_witness :
    checkComplete (btreeInsert 0 ([5], true)
      ((lookupA ([] : ReassemblerState) (1, 2)).getD [])) 0 = false ∧
    ((∀ e, (process_segment [] 1 2 (TpHeader.mk 0 true) [5]).1
      ≠ Except.error e) ∧
    lookupA (process_segment [] 1 2 (TpHeader.mk 0 true) [5]).2 (1, 2)
      = some (btreeInsert 0 ([5], true)
          ((lookupA ([] : ReassemblerState) (1, 2)).getD []))) :=
  ⟨by decide, process_segment_never_errors [] 1 2 (TpHeader.mk 0 true) [5] (by decide)⟩

/-- C1 counterexample: a single 70000-byte segment — more than the claimed
per-key maximum of at least 64 KiB — is stored and `Ok(None)` is returned;
the key is not evicted and no `MalformedMessage` error is produced. -/
theorem process_segment_oversize_stored :
    65536 < (List.replicate 70000 (0 : Nat)).length ∧
    (process_segment [] 1 2 (TpHeader.mk 0 true) (List.replicate 70000 0)).1
      = Except.ok none ∧
    lookupA (process_segment [] 1 2 (TpHeader.mk 0 true)
        (List.replicate 70000 0)).2 (1, 2)
      = some [(0, (List.replicate 70000 0, true))] := by
  have hgen : ∀ payload : List Nat,
      process_segment [] 1 2 (TpHeader.mk 0 true) payload
        = (Except.ok none, [((1, 2), [(0, (payload, true))])]) := fun _ => rfl
  refine ⟨by rw [List.length_replicate]; norm_num, ?_, ?_⟩
  · rw [hgen]
  · rw [hgen]
    exact lookupA_insertA_self (1, 2) _ []

/-! ## TCP stream framing (`src/transport/tcp.rs`) -/

/-- `someip_message_len`: with at least 8 buffered bytes, reads the header
length field (bytes 4..8, big-endian) and reports the total framed size
`8 + length` when that many bytes are buffered. -/
def someip_message_len (buf : List Nat) : Option Nat :=
  if buf.length < 8 then
    none
  else
    let length := readU32be buf 4
    let total := 8 + length
    if buf.length ≥ total then some total else none

/-- The framed delivery step shared by `TcpTransport::receive` and
`TcpServer::receive_from`, after newly read bytes have been appended to the
per-connection buffer: if a complete message is buffered, copy
`min(msg_len, buffer.len())` bytes to the caller and drain the whole
message; otherwise report WouldBlock. -/
def tcp_frame_receive (internal : List Nat) (bufferLen : Nat) :
    Except String (List Nat × List Nat) :=
  match someip_message_len internal with
  | some msgLen =>
    let copyLen := min msgLen bufferLen
    Except.ok (internal.take copyLen, internal.drop msgLen)
  | none => Except.error "Incomplete SOME/IP message"

/-- C10: when the caller's buffer is smaller than the complete framed
message at the head of the internal buffer, receive copies only
`buffer.len()` bytes, returns them as a success, and still drains the
entire message — the tail bytes of the message are dropped, not kept. -/
theorem tcp_receive_truncates_and_drains (internal : List Nat)
    (bufferLen msgLen : Nat)
    (hmsg : someip_message_len internal = some msgLen)
    (hsmall : bufferLen < msgLen) :
    tcp_frame_receive internal bufferLen
      = Except.ok (internal.take bufferLen, internal.drop msgLen) ∧
    (internal.take bufferLen).length = bufferLen ∧
    internal.drop msgLen
      = (internal.take msgLen ++ internal.drop msgLen).drop msgLen := by
  have hle : msgLen ≤ internal.length := by
    unfold someip_message_len at hmsg
    by_cases h8 : internal.length < 8
    · rw [if_pos h8] at hmsg
      exact absurd hmsg (by simp)
    · rw [if_neg h8] at hmsg
      simp only at hmsg
      by_cases htot : internal.length ≥ 8 + readU32be internal 4
      · rw [if_pos htot] at hmsg
        simp only [Option.some.injEq] at hmsg
        omega
      · rw [if_neg htot] at hmsg
        exact absurd hmsg (by simp)
  refine ⟨?_, ?_, ?_⟩
  · unfold tcp_frame_receive
    rw [hmsg]
    simp only [Except.ok.injEq]
    rw [Nat.min_eq_right (Nat.le_of_lt hsmall)]
  · rw [List.length_take]
    omega
  · rw [List.take_append_drop]

/-- Closed witness: a 20-byte framed message (length field 12) received
into a 10-byte caller buffer. -/
theorem tcp_receive_truncates_witness :
    someip_message_len
      [1, 2, 3, 4, 0, 0, 0, 12, 9, 10, 11, 12, 13, 14, 15, 16, 21, 22, 23, 24]
      = some 20 ∧
    10 < 20 ∧
    (tcp_frame_receive
        [1, 2, 3, 4, 0, 0, 0, 12, 9, 10, 11, 12, 13, 14, 15, 16, 21, 22, 23, 24] 10
      = Except.ok
          ([1, 2, 3, 4, 0, 0, 0, 12, 9, 10, 11, 12, 13, 14, 15, 16, 21, 22, 23, 24].take 10,
           [1, 2, 3, 4, 0, 0, 0, 12, 9, 10, 11, 12, 13, 14, 15, 16, 21, 22, 23, 24].drop 20) ∧
     ([1, 2, 3, 4, 0, 0, 0, 12, 9, 10, 11, 12, 13, 14, 15, 16, 21, 22, 23, 24].take 10).length
       = 10 ∧
     [1, 2, 3, 4, 0, 0, 0, 12, 9, 10, 11, 12, 13, 14, 15, 16, 21, 22, 23, 24].drop 20
       = ([1, 2, 3, 4, 0, 0, 0, 12, 9, 10, 11, 12, 13, 14, 15, 16, 21, 22, 23, 24].take 20
          ++ [1, 2, 3, 4, 0, 0, 0, 12, 9, 10, 11, 12, 13, 14, 15, 16, 21, 22, 23, 24].drop 20).drop 20) :=
  ⟨by decide, by decide,
    tcp_receive_truncates_and_drains
      [1, 2, 3, 4, 0, 0, 0, 12, 9, 10, 11, 12, 13, 14, 15, 16, 21, 22, 23, 24]
      10 20 (by decide) (by decide)⟩

/-! ## Service Discovery (`src/sd/entries.rs`, `src/sd/options.rs`,
`src/sd/machine.rs`) -/

/-- SD entry types, `src/sd/entries.rs`. -/
inductive EntryType
  | FindService
  | OfferService
  | RequestService
  | SubscribeEventgroup
  | SubscribeEventgroupAck
  | StopSubscribeEventgroup
  | Unknown
deriving DecidableEq, Repr

/-- An IP address (v4 or v6), the `std::net::IpAddr` of the source; the
numeric value stands for the address bytes. -/
inductive IpAddr
  | v4 (addr : Nat)
  | v6 (addr : Nat)
deriving DecidableEq, Repr

/-- `std::net::SocketAddr`. -/
structure SockAddr where
  ip : IpAddr
  port : Nat
deriving DecidableEq, Repr

/-- SD options, `src/sd/options.rs`. -/
inductive SdOption
  | Ipv4Endpoint (address transport_proto port : Nat)
  | Ipv6Endpoint (address transport_proto port : Nat)
  | Ipv4Multicast (address transport_proto port : Nat)
  | Ipv6Multicast (address transport_proto port : Nat)
  | Configuration (config_string : String)
  | LoadBalancing (priority weight : Nat)
  | Unknown (length type_id : Nat) (data : List Nat)
deriving DecidableEq, Repr

/-- A 16-byte SD entry, `src/sd/entries.rs`. -/
structure SdEntry where
  entry_type : EntryType
  index_1 : Nat
  index_2 : Nat
  number_of_opts_1 : Nat
  number_of_opts_2 : Nat
  service_id : Nat
  instance_id : Nat
  major_version : Nat
  ttl : Nat
  minor_version : Nat
deriving DecidableEq, Repr

/-- An SD packet, `src/sd/packet.rs`. -/
structure SdPacket where
  flags : Nat
  entries : List SdEntry
  options : List SdOption
deriving DecidableEq, Repr

/-- The offer phase of a local service, `src/sd/machine.rs`. -/
inductive ServicePhase
  | Down
  | InitialWait
  | Repetition
  | Main
deriving DecidableEq, Repr

/-- A locally offered service (`LocalService` in `src/sd/machine.rs`);
instants and durations are modelled as `Nat` milliseconds. -/
structure LocalService where
  entry : SdEntry
  endpoint_options : List SdOption
  phase : ServicePhase
  phase_start : Nat
  next_transmission : Nat
  repetition_count : Nat
  initial_delay_min : Nat
  initial_delay_max : Nat
  repetition_base_delay : Nat
  repetition_max : Nat
  cyclic_delay : Nat
  ttl : Nat
deriving DecidableEq, Repr

/-- A discovered remote service (`RemoteService` in `src/sd/machine.rs`). -/
structure RemoteService where
  service_id : Nat
  instance_id : Nat
  version_major : Nat
  version_minor : Nat
  endpoint : List SdOption
  last_seen : Nat
  ttl : Nat
deriving DecidableEq, Repr

/-- The mutable maps of `ServiceDiscovery` (`src/sd/machine.rs`); the
transports/listeners are outside the shallow embedding, so an outbound
`send_packet` is recorded as an emitted `(entry, options)` pair. -/
structure SdState where
  local_services : List ((Nat × Nat) × LocalService)
  remote_services : List ((Nat × Nat) × RemoteService)
  subscriptions : List ((Nat × Nat) × List SockAddr)
  pending_subscriptions : List ((Nat × Nat) × Bool)
deriving DecidableEq, Repr

/-- The subscriber endpoint extracted from an option in the
SubscribeEventgroup branch of `handle_incoming_packet`. -/
def subscriberAddr : SdOption → Option SockAddr
  | SdOption.Ipv4Endpoint address _ port => some ⟨IpAddr.v4 address, port⟩
  | SdOption.Ipv6Endpoint address _ port => some ⟨IpAddr.v6 address, port⟩
  | _ => none

/-- The SubscribeEventgroupAck entry built inside `handle_incoming_packet`:
same ids, same major version, same TTL, same final 32-bit field. -/
def subAckEntry (entry : SdEntry) : SdEntry :=
  { entry_type := EntryType.SubscribeEventgroupAck
    index_1 := 0
    index_2 := 0
    number_of_opts_1 := 0
    number_of_opts_2 := 0
    service_id := entry.service_id
    instance_id := entry.instance_id
    major_version := entry.major_version
    ttl := entry.ttl
    minor_version := entry.minor_version }

/-- One option of the first run in the SubscribeEventgroup (TTL>0) branch:
endpoint options append the subscriber and emit an Ack; others are
skipped. -/
def handleSubscribeOption (serviceId eventgroupId : Nat) (entry : SdEntry)
    (acc : SdState × List (SdEntry × List SdOption)) (opt : SdOption) :
    SdState × List (SdEntry × List SdOption) :=
  match subscriberAddr opt with
  | some addr =>
    let s := acc.1
    let subs := (lookupA s.subscriptions (serviceId, eventgroupId)).getD []
    ({ s with subscriptions :=
        insertA (serviceId, eventgroupId) (subs ++ [addr]) s.subscriptions },
     acc.2 ++ [(subAckEntry entry, [])])
  | none => acc

/-- Resolution of one `(index, count)` option run, bounds-checked exactly as
in the source (`if end_idx <= packet.options.len()`; out-of-bounds runs
contribute nothing). -/
def resolveOptionRun (options : List SdOption) (startIdx count : Nat) :
    List SdOption :=
  if startIdx + count ≤ options.length then
    (options.drop startIdx).take count
  else
    []

/-- One entry of `ServiceDiscovery::handle_incoming_packet`. -/
def handleSdEntry (now : Nat) (options : List SdOption)
    (acc : SdState × List (SdEntry × List SdOption)) (entry : SdEntry) :
    SdState × List (SdEntry × List SdOption) :=
  let s := acc.1
  let sent := acc.2
  match entry.entry_type with
  | EntryType.OfferService =>
    if entry.ttl = 0 then
      ({ s with remote_services :=
          removeA (entry.service_id, entry.instance_id) s.remote_services },
       sent)
    else
      let serviceOpts := resolveOptionRun options entry.index_1 entry.number_of_opts_1
        ++ resolveOptionRun options entry.index_2 entry.number_of_opts_2
      let remote : RemoteService :=
        { service_id := entry.service_id
          instance_id := entry.instance_id
          version_major := entry.major_version
          version_minor := entry.minor_version
          endpoint := serviceOpts
          last_seen := now
          ttl := entry.ttl }
      ({ s with remote_services :=
          insertA (entry.service_id, entry.instance_id) remote s.remote_services },
       sent)
  | EntryType.FindService =>
    -- The source body is only `// TODO: Send Offer if we have it?`.
    (s, sent)
  | EntryType.SubscribeEventgroup =>
    let eventgroupId := entry.minor_version / 65536 % 65536
    if entry.ttl = 0 then
      -- The source only looks the key up and logs; no state change.
      (s, sent)
    else
      if entry.index_1 + entry.number_of_opts_1 ≤ options.length then
        ((options.drop entry.index_1).take entry.number_of_opts_1).foldl
          (handleSubscribeOption entry.service_id eventgroupId entry) (s, sent)
      else
        (s, sent)
  | EntryType.SubscribeEventgroupAck =>
    let eventgroupId := entry.minor_version / 65536 % 65536
    if entry.ttl > 0 then
      ({ s with pending_subscriptions :=
          insertA (entry.service_id, eventgroupId) true s.pending_subscriptions },
       sent)
    else
      ({ s with pending_subscriptions :=
          insertA (entry.service_id, eventgroupId) false s.pending_subscriptions },
       sent)
  | _ => (s, sent)

/-- `ServiceDiscovery::handle_incoming_packet`: fold over the packet's
entries, accumulating state changes and emitted reply packets. -/
def handle_incoming_packet (now : Nat) (s : SdState) (packet : SdPacket) :
    SdState × List (SdEntry × List SdOption) :=
  packet.entries.foldl (handleSdEntry now packet.options) (s, [])

/-- The first Ipv4/Ipv6 endpoint option of a list, with its L4 protocol
code — the inner loop of `get_service`. -/
def firstEndpoint : List SdOption → Option (SockAddr × Nat)
  | [] => none
  | SdOption.Ipv4Endpoint address transport_proto port :: _ =>
    some (⟨IpAddr.v4 address, port⟩, transport_proto)
  | SdOption.Ipv6Endpoint address transport_proto port :: _ =>
    some (⟨IpAddr.v6 address, port⟩, transport_proto)
  | _ :: rest => firstEndpoint rest

/-- The wildcard scan of `get_service` over the remote-service registry (in
registry order; the source iterates a `HashMap` in unspecified order). -/
def wildcardScan (serviceId : Nat) :
    List ((Nat × Nat) × RemoteService) → Option (SockAddr × Nat)
  | [] => none
  | ((sid, _), remote) :: rest =>
    if sid = serviceId then
      match firstEndpoint remote.endpoint with
      | some r => some r
      | none => wildcardScan serviceId rest
    else
      wildcardScan serviceId rest

/-- `ServiceDiscovery::get_service`: wildcard instance 0xFFFF scans for any
matching service id; otherwise exact lookup, then the first endpoint
option. -/
def get_service (s : SdState) (serviceId instanceId : Nat) :
    Option (SockAddr × Nat) :=
  if instanceId = 0xFFFF then
    wildcardScan serviceId s.remote_services
  else
    match lookupA s.remote_services (serviceId, instanceId) with
    | some remote => firstEndpoint remote.endpoint
    | none => none

/-- C7: an inbound OfferService entry with TTL=0 removes exactly the
matching (service-id, instance-id) key: afterwards the key is absent from
the remote registry, an exact `get_service` for it returns nothing, and
every other registry entry is unchanged. -/
theorem offer_ttl0_removes_service (now : Nat) (s : SdState) (e : SdEntry)
    (opts : List SdOption) (flags : Nat)
    (htype : e.entry_type = EntryType.OfferService)
    (httl : e.ttl = 0)
    (hinst : e.instance_id ≠ 0xFFFF) :
    lookupA (handle_incoming_packet now s
        (SdPacket.mk flags [e] opts)).1.remote_services
        (e.service_id, e.instance_id) = none ∧
    get_service (handle_incoming_packet now s (SdPacket.mk flags [e] opts)).1
        e.service_id e.instance_id = none ∧
    (∀ k, k ≠ (e.service_id, e.instance_id) →
      lookupA (handle_incoming_packet now s
          (SdPacket.mk flags [e] opts)).1.remote_services k
        = lookupA s.remote_services k) := by
  have hres : handle_incoming_packet now s (SdPacket.mk flags [e] opts)
      = ({ s with remote_services :=
            removeA (e.service_id, e.instance_id) s.remote_services }, []) := by
    unfold handle_incoming_packet
    simp only [List.foldl_cons, List.foldl_nil]
    unfold handleSdEntry
    rw [htype]
    simp [httl]
  rw [hres]
  refine ⟨lookupA_removeA_self _ _, ?_, fun k hk => lookupA_removeA_ne _ _ _ hk⟩
  unfold get_service
  rw [if_neg hinst]
  rw [lookupA_removeA_self]

/-- Closed witness: a registry holding (0x1234, 1) and (0x5678, 2) after a
TTL=0 offer for (0x1234, 1). -/
theorem offer_ttl0_removes_service_witness :
    ((SdEntry.mk EntryType.OfferService 0 0 0 0 0x1234 1 1 0 0).entry_type
        = EntryType.OfferService ∧
      (SdEntry.mk EntryType.OfferService 0 0 0 0 0x1234 1 1 0 0).ttl = 0 ∧
      (SdEntry.mk EntryType.OfferService 0 0 0 0 0x1234 1 1 0 0).instance_id
        ≠ 0xFFFF) ∧
    (lookupA (handle_incoming_packet 7
        (SdState.mk []
          [((0x1234, 1), RemoteService.mk 0x1234 1 1 0 [] 0 10),
           ((0x5678, 2), RemoteService.mk 0x5678 2 1 0 [] 0 10)] [] [])
        (SdPacket.mk 0 [SdEntry.mk EntryType.OfferService 0 0 0 0 0x1234 1 1 0 0]
          [])).1.remote_services (0x1234, 1) = none ∧
     get_service (handle_incoming_packet 7
        (SdState.mk []
          [((0x1234, 1), RemoteService.mk 0x1234 1 1 0 [] 0 10),
           ((0x5678, 2), RemoteService.mk 0x5678 2 1 0 [] 0 10)] [] [])
        (SdPacket.mk 0 [SdEntry.mk EntryType.OfferService 0 0 0 0 0x1234 1 1 0 0]
          [])).1 0x1234 1 = none ∧
     (∀ k, k ≠ ((0x1234 : Nat), (1 : Nat)) →
       lookupA (handle_incoming_packet 7
          (SdState.mk []
            [((0x1234, 1), RemoteService.mk 0x1234 1 1 0 [] 0 10),
             ((0x5678, 2), RemoteService.mk 0x5678 2 1 0 [] 0 10)] [] [])
          (SdPacket.mk 0 [SdEntry.mk EntryType.OfferService 0 0 0 0 0x1234 1 1 0 0]
            [])).1.remote_services k
         = lookupA [((0x1234, 1), RemoteService.mk 0x1234 1 1 0 [] 0 10),
             ((0x5678, 2), RemoteService.mk 0x5678 2 1 0 [] 0 10)] k)) :=
  ⟨⟨rfl, rfl, by decide⟩,
    offer_ttl0_removes_service 7
      (SdState.mk []
        [((0x1234, 1), RemoteService.mk 0x1234 1 1 0 [] 0 10),
         ((0x5678, 2), RemoteService.mk 0x5678 2 1 0 [] 0 10)] [] [])
      (SdEntry.mk EntryType.OfferService 0 0 0 0 0x1234 1 1 0 0) [] 0
      rfl rfl (by decide)⟩

/-- C6 (amended): an inbound SubscribeEventgroup entry with TTL > 0 and one
endpoint option appends the subscriber address to the list for
(service-id, eventgroup-id) — without deduplication — and emits one
SubscribeEventgroupAck carrying the same TTL. -/
theorem subscribe_appends_and_acks (now : Nat) (s : SdState) (e : SdEntry)
    (flags addr4 proto port : Nat)
    (htype : e.entry_type = EntryType.SubscribeEventgroup)
    (httl : ¬ e.ttl = 0)
    (hidx : e.index_1 = 0) (hnum : e.number_of_opts_1 = 1) :
    handle_incoming_packet now s
        (SdPacket.mk flags [e] [SdOption.Ipv4Endpoint addr4 proto port])
      = (SdState.mk s.local_services s.remote_services
          (insertA (e.service_id, e.minor_version / 65536 % 65536)
            (((lookupA s.subscriptions
                (e.service_id, e.minor_version / 65536 % 65536)).getD [])
              ++ [SockAddr.mk (IpAddr.v4 addr4) port])
            s.subscriptions)
          s.pending_subscriptions,
         [(subAckEntry e, [])]) := by
  unfold handle_incoming_packet
  simp only [List.foldl_cons, List.foldl_nil]
  unfold handleSdEntry
  rw [htype]
  simp [httl, hidx, hnum, handleSubscribeOption, subscriberAddr]

/-- Closed witness for the subscribe-append theorem at a concrete entry and
empty state. -/
theorem subscribe_appends_and_acks_witness :
    ((SdEntry.mk EntryType.SubscribeEventgroup 0 0 1 0 0x1234 1 1 100 65536).entry_type
        = EntryType.SubscribeEventgroup ∧
      ¬ (SdEntry.mk EntryType.SubscribeEventgroup 0 0 1 0 0x1234 1 1 100 65536).ttl = 0 ∧
      (SdEntry.mk EntryType.SubscribeEventgroup 0 0 1 0 0x1234 1 1 100 65536).index_1 = 0 ∧
      (SdEntry.mk EntryType.SubscribeEventgroup 0 0 1 0 0x1234 1 1 100 65536).number_of_opts_1 = 1) ∧
    handle_incoming_packet 0 (SdState.mk [] [] [] [])
        (SdPacket.mk 0 [SdEntry.mk EntryType.SubscribeEventgroup 0 0 1 0 0x1234 1 1 100 65536]
          [SdOption.Ipv4Endpoint 2130706433 0x11 40000])
      = (SdState.mk (SdState.mk [] [] [] []).local_services
          (SdState.mk [] [] [] []).remote_services
          (insertA ((SdEntry.mk EntryType.SubscribeEventgroup 0 0 1 0 0x1234 1 1 100 65536).service_id,
              (SdEntry.mk EntryType.SubscribeEventgroup 0 0 1 0 0x1234 1 1 100 65536).minor_version / 65536 % 65536)
            (((lookupA (SdState.mk [] [] [] []).subscriptions
                ((SdEntry.mk EntryType.SubscribeEventgroup 0 0 1 0 0x1234 1 1 100 65536).service_id,
                 (SdEntry.mk EntryType.SubscribeEventgroup 0 0 1 0 0x1234 1 1 100 65536).minor_version / 65536 % 65536)).getD [])
              ++ [SockAddr.mk (IpAddr.v4 2130706433) 40000])
            (SdState.mk [] [] [] []).subscriptions)
          (SdState.mk [] [] [] []).pending_subscriptions,
         [(subAckEntry (SdEntry.mk EntryType.SubscribeEventgroup 0 0 1 0 0x1234 1 1 100 65536), [])]) :=
  ⟨⟨rfl, by decide, rfl, rfl⟩,
    subscribe_appends_and_acks 0 (SdState.mk [] [] [] [])
      (SdEntry.mk EntryType.SubscribeEventgroup 0 0 1 0 0x1234 1 1 100 65536)
      0 2130706433 0x11 40000 rfl (by decide) rfl rfl⟩

/-- C6 counterexample: handling the same SubscribeEventgroup entry twice
stores the subscriber address twice — the subscriber set after two runs
differs from the set after one run, so processing is not idempotent and
duplicates are not removed. -/
theorem subscribe_not_idempotent :
    lookupA (handle_incoming_packet 0
        (handle_incoming_packet 0 (SdState.mk [] [] [] [])
          (SdPacket.mk 0 [SdEntry.mk EntryType.SubscribeEventgroup 0 0 1 0 0x1234 1 1 100 65536]
            [SdOption.Ipv4Endpoint 2130706433 0x11 40000])).1
        (SdPacket.mk 0 [SdEntry.mk EntryType.SubscribeEventgroup 0 0 1 0 0x1234 1 1 100 65536]
          [SdOption.Ipv4Endpoint 2130706433 0x11 40000])).1.subscriptions
      (0x1234, 1)
      = some [SockAddr.mk (IpAddr.v4 2130706433) 40000,
              SockAddr.mk (IpAddr.v4 2130706433) 40000] ∧
    lookupA (handle_incoming_packet 0 (SdState.mk [] [] [] [])
        (SdPacket.mk 0 [SdEntry.mk EntryType.SubscribeEventgroup 0 0 1 0 0x1234 1 1 100 65536]
          [SdOption.Ipv4Endpoint 2130706433 0x11 40000])).1.subscriptions
      (0x1234, 1)
      = some [SockAddr.mk (IpAddr.v4 2130706433) 40000] ∧
    [SockAddr.mk (IpAddr.v4 2130706433) 40000,
     SockAddr.mk (IpAddr.v4 2130706433) 40000]
      ≠ [SockAddr.mk (IpAddr.v4 2130706433) 40000] := by
  refine ⟨?_, ?_, by decide⟩ <;> rfl

/-- C5 (amended): a received FindService entry is ignored — the source
branch is a TODO — so handling a packet of FindService entries changes no
state and emits no reply. -/
theorem find_service_ignored (now : Nat) (s : SdState) (p : SdPacket)
    (hall : ∀ e ∈ p.entries, e.entry_type = EntryType.FindService) :
    handle_incoming_packet now s p = (s, []) := by
  unfold handle_incoming_packet
  have hgen : ∀ (entries : List SdEntry)
      (acc : SdState × List (SdEntry × List SdOption)),
      (∀ e ∈ entries, e.entry_type = EntryType.FindService) →
      entries.foldl (handleSdEntry now p.options) acc = acc := by
    intro entries
    induction entries with
    | nil => intro acc _; rfl
    | cons hd tl ih =>
      intro acc hall2
      rw [List.foldl_cons]
      have hstep : handleSdEntry now p.options acc hd = acc := by
        unfold handleSdEntry
        rw [hall2 hd (List.mem_cons_self _ _)]
      rw [hstep]
      exact ih _ (fun e he => hall2 e (List.mem_cons_of_mem _ he))
  exact hgen p.entries (s, []) hall

/-- Closed witness for `find_service_ignored` at a concrete packet. -/
theorem find_service_ignored_witness :
    (∀ e ∈ (SdPacket.mk 0 [SdEntry.mk EntryType.FindService 0 0 0 0 0x1234 0xFFFF 1 100 0] []).entries,
      e.entry_type = EntryType.FindService) ∧
    handle_incoming_packet 0 (SdState.mk [] [] [] [])
        (SdPacket.mk 0 [SdEntry.mk EntryType.FindService 0 0 0 0 0x1234 0xFFFF 1 100 0] [])
      = (SdState.mk [] [] [] [], []) :=
  ⟨by decide,
    find_service_ignored 0 (SdState.mk [] [] [] [])
      (SdPacket.mk 0 [SdEntry.mk EntryType.FindService 0 0 0 0 0x1234 0xFFFF 1 100 0] [])
      (by decide)⟩

/-- C5 counterexample: the machine locally offers a matching
(0x1234, instance 1, major 1) service, a FindService for service 0x1234
(wildcard instance 0xFFFF, major 1) arrives, and `handle_incoming_packet`
sends nothing at all — in particular no unicast OfferService — and leaves
the state unchanged. -/
theorem find_service_no_offer_response :
    lookupA (SdState.mk
        [((0x1234, 1), LocalService.mk
          (SdEntry.mk EntryType.OfferService 0 0 0 0 0x1234 1 1 0 0)
          [] ServicePhase.Main 0 0 0 10 100 100 3 1000 0xFFFFFF)]
        [] [] []).local_services (0x1234, 1)
      = some (LocalService.mk
          (SdEntry.mk EntryType.OfferService 0 0 0 0 0x1234 1 1 0 0)
          [] ServicePhase.Main 0 0 0 10 100 100 3 1000 0xFFFFFF) ∧
    handle_incoming_packet 0
        (SdState.mk
          [((0x1234, 1), LocalService.mk
            (SdEntry.mk EntryType.OfferService 0 0 0 0 0x1234 1 1 0 0)
            [] ServicePhase.Main 0 0 0 10 100 100 3 1000 0xFFFFFF)]
          [] [] [])
        (SdPacket.mk 0 [SdEntry.mk EntryType.FindService 0 0 0 0 0x1234 0xFFFF 1 100 0] [])
      = (SdState.mk
          [((0x1234, 1), LocalService.mk
            (SdEntry.mk EntryType.OfferService 0 0 0 0 0x1234 1 1 0 0)
            [] ServicePhase.Main 0 0 0 10 100 100 3 1000 0xFFFFFF)]
          [] [] [], []) := by
  refine ⟨rfl, ?_⟩
  rfl

/-! ## The TP send path of `send_request_and_wait` (`src/runtime/mod.rs`) -/

/-- The conservative MTU hard-coded in `send_request_and_wait`. -/
def runtime_mtu : Nat := 1400

/-- Header bytes assumed by the send path: 16 (SOME/IP header) + 4 (TP). -/
def runtime_header_len : Nat := 20

/-- `max_segment_payload = (mtu - header_len) / 16 * 16` from the send
path. -/
def runtime_max_segment_payload : Nat :=
  (runtime_mtu - runtime_header_len) / 16 * 16

/-- Unfolding equation of `segChunks` with the fuel split off
explicitly, for evaluating concrete instances. -/
theorem segChunks_eval_step (p : List Nat) (a fuel fuel' cursor : Nat)
    (hf : fuel = fuel' + 1) :
    segChunks p a fuel cursor
      = if cursor < p.length then
          (TpHeader.mk (cursor % 4294967296)
            (decide (cursor + (if p.length - cursor > a then a
              else p.length - cursor) < p.length)),
            (p.drop cursor).take (if p.length - cursor > a then a
              else p.length - cursor))
          :: segChunks p a fuel'
              (cursor + (if p.length - cursor > a then a else p.length - cursor))
        else [] := by
  subst hf
  rfl

/-- A full (non-final) step of the slicing loop. -/
theorem segChunks_step_full (p : List Nat) (a fuel fuel' cursor : Nat)
    (hf : fuel = fuel' + 1) (hlt : cursor + a < p.length)
    (ha : p.length - cursor > a) :
    segChunks p a fuel cursor
      = (TpHeader.mk (cursor % 4294967296) true, (p.drop cursor).take a)
        :: segChunks p a fuel' (cursor + a) := by
  subst hf
  rw [segChunks_eval_step p a (fuel' + 1) fuel' cursor rfl]
  rw [if_pos (show cursor < p.length by omega)]
  rw [if_pos ha]
  simp [hlt]

/-- The final step of the slicing loop: the remainder is taken and the
More flag is clear. -/
theorem segChunks_step_last (p : List Nat) (a fuel fuel' cursor : Nat)
    (hf : fuel = fuel' + 1) (hc : cursor < p.length)
    (hge : ¬ p.length - cursor > a) :
    segChunks p a fuel cursor
      = [(TpHeader.mk (cursor % 4294967296) false,
          (p.drop cursor).take (p.length - cursor))] := by
  subst hf
  rw [segChunks_eval_step p a (fuel' + 1) fuel' cursor rfl]
  rw [if_pos hc, if_neg hge]
  rw [segChunks_of_ge p a fuel' (cursor + (p.length - cursor)) (by omega)]
  have h2 : ¬ (cursor + (p.length - cursor) < p.length) := by omega
  simp [h2]

/-- The concrete chunking of a 5000-byte payload at aligned maximum 1376:
three full 1376-byte chunks and an 872-byte remainder. -/
theorem segChunks_5000 (p : List Nat) (hp : p.length = 5000) :
    segChunks p 1376 5001 0
      = [(TpHeader.mk 0 true, p.take 1376),
         (TpHeader.mk 1376 true, (p.drop 1376).take 1376),
         (TpHeader.mk 2752 true, (p.drop 2752).take 1376),
         (TpHeader.mk 4128 false, (p.drop 4128).take 872)] := by
  rw [segChunks_step_full p 1376 5001 5000 0 rfl (by omega) (by omega)]
  rw [segChunks_step_full p 1376 5000 4999 (0 + 1376) rfl (by omega) (by omega)]
  rw [segChunks_step_full p 1376 4999 4998 (0 + 1376 + 1376) rfl (by omega) (by omega)]
  rw [segChunks_step_last p 1376 4998 4997 (0 + 1376 + 1376 + 1376) rfl
    (by omega) (by omega)]
  norm_num [hp]

/-- C8 (amended): with the send path's conservative MTU 1400 and header
bytes 16 + 4, a 5000-byte payload exceeds the 1376-byte aligned maximum and
is split into three 1376-byte TP segments (More=1, offsets 0, 1376, 2752)
plus one final 872-byte segment (More=0, offset 4128) — four segments in
all — and reassembling the transmitted segments yields exactly the original
5000 bytes. -/
theorem send_request_5000_segments (p : List Nat) (hp : p.length = 5000) :
    runtime_max_segment_payload = 1376 ∧
    p.length > runtime_max_segment_payload ∧
    (∃ segs, segment_payload p runtime_max_segment_payload (p.length + 1)
        = some segs ∧
      segs.map (fun s => (s.1.offset, s.2.length, s.1.more_segments))
        = [(0, 1376, true), (1376, 1376, true), (2752, 1376, true),
           (4128, 872, false)] ∧
      reassemble_payload (btreeOfSegments segs) = some p) := by
  have hmax : runtime_max_segment_payload = 1376 := by
    norm_num [runtime_max_segment_payload, runtime_mtu, runtime_header_len]
  refine ⟨hmax, by rw [hmax]; omega, ?_⟩
  refine ⟨segChunks p 1376 5001 0, ?_, ?_, ?_⟩
  · rw [hmax, hp]
    simp only [segment_payload]
    rw [if_neg (by omega : ¬ p.length = 0)]
    rw [show (1376 : Nat) / 16 * 16 = 1376 by norm_num]
    exact segLoop_eq_segChunks p 1376 (by norm_num) (5000 + 1) 0 (by omega)
  · rw [segChunks_5000 p hp]
    simp [hp]
  · rw [btreeOfSegments_eq (segChunks p 1376 5001 0)
      (segChunks_offset_pairwise p 1376 (by norm_num) (by omega) 5001 0)]
    unfold reassemble_payload
    have := reassembleGo_segChunks p 1376 (by norm_num) (by omega) 5001 0 [] (by omega)
    simpa using this

/-- Closed witness for the 5000-byte split theorem. -/
theorem send_request_5000_segments_witness :
    (List.replicate 5000 (0 : Nat)).length = 5000 ∧
    (runtime_max_segment_payload = 1376 ∧
    (List.replicate 5000 (0 : Nat)).length > runtime_max_segment_payload ∧
    (∃ segs, segment_payload (List.replicate 5000 (0 : Nat))
        runtime_max_segment_payload
        ((List.replicate 5000 (0 : Nat)).length + 1) = some segs ∧
      segs.map (fun s => (s.1.offset, s.2.length, s.1.more_segments))
        = [(0, 1376, true), (1376, 1376, true), (2752, 1376, true),
           (4128, 872, false)] ∧
      reassemble_payload (btreeOfSegments segs)
        = some (List.replicate 5000 (0 : Nat)))) :=
  ⟨by rw [List.length_replicate],
    send_request_5000_segments (List.replicate 5000 (0 : Nat))
      (by rw [List.length_replicate])⟩

/-- The segment statistics of any 5000-byte payload at aligned maximum
1376: four segments, of which three carry 1376 bytes. -/
theorem segment_5000_stats (p : List Nat) (hp : p.length = 5000) :
    ∃ segs, segment_payload p 1376 5001 = some segs ∧
      segs.map (fun s => (s.2.length, s.1.more_segments))
        = [(1376, true), (1376, true), (1376, true), (872, false)] ∧
      segs.length = 4 ∧ ¬ segs.length = 5 ∧
      (segs.map (fun s => s.2.length)).count 1376 = 3 ∧
      ¬ (segs.map (fun s => s.2.length)).count 1376 = 4 := by
  have hterm : segment_payload p 1376 5001 = some (segChunks p 1376 5001 0) := by
    simp only [segment_payload]
    rw [if_neg (by omega : ¬ p.length = 0)]
    rw [show (1376 : Nat) / 16 * 16 = 1376 by norm_num]
    exact segLoop_eq_segChunks p 1376 (by norm_num) 5001 0 (by omega)
  have hshape := segChunks_5000 p hp
  have hmap : (segChunks p 1376 5001 0).map (fun s => (s.2.length, s.1.more_segments))
      = [(1376, true), (1376, true), (1376, true), (872, false)] := by
    rw [hshape]
    simp [hp]
  have hlen : (segChunks p 1376 5001 0).map (fun s => s.2.length)
      = [1376, 1376, 1376, 872] := by
    have h := congrArg (List.map Prod.fst) hmap
    simpa [List.map_map, Function.comp] using h
  have hcount : (segChunks p 1376 5001 0).length = 4 := by
    have h := congrArg List.length hmap
    simpa using h
  refine ⟨segChunks p 1376 5001 0, hterm, hmap, hcount, by omega, ?_, ?_⟩
  · rw [hlen]
    rfl
  · rw [hlen]
    decide

/-- C8 counterexample: the 5000-byte payload is split into FOUR segments of
which THREE are 1376 bytes — not into four 1376-byte segments plus a fifth
smaller one as claimed. -/
theorem send_request_5000_split_counterexample :
    ∃ segs, segment_payload (List.replicate 5000 (0 : Nat)) 1376 5001
        = some segs ∧
      segs.map (fun s => (s.2.length, s.1.more_segments))
        = [(1376, true), (1376, true), (1376, true), (872, false)] ∧
      segs.length = 4 ∧ ¬ segs.length = 5 ∧
      (segs.map (fun s => s.2.length)).count 1376 = 3 ∧
      ¬ (segs.map (fun s => s.2.length)).count 1376 = 4 :=
  segment_5000_stats (List.replicate 5000 0) (by rw [List.length_replicate])

/-- The chunking of a `2^32 + 16`-byte payload at aligned maximum `2^32`:
the second chunk starts at cursor `2^32`, whose u32-truncated offset wraps
to 0 and collides with the first chunk's offset. -/
theorem segChunks_wrap_shape (p : List Nat) (hp : p.length = 4294967312) :
    segChunks p 4294967296 4294967313 0
      = [(TpHeader.mk 0 true, p.take 4294967296),
         (TpHeader.mk 0 false, (p.drop 4294967296).take 16)] := by
  rw [segChunks_step_full p 4294967296 4294967313 4294967312 0 rfl
    (by omega) (by omega)]
  rw [segChunks_step_last p 4294967296 4294967312 4294967311 (0 + 4294967296) rfl
    (by omega) (by omega)]
  norm_num [hp]

/-- For a `2^32 + 16`-byte payload the offset collision makes the second
chunk overwrite the first in the offset map, and reassembly returns only the
final 16 bytes. -/
theorem reassemble_wrap_loses_data (p : List Nat) (hp : p.length = 4294967312) :
    segment_payload p 4294967296 (p.length + 1)
      = some (segChunks p 4294967296 4294967313 0) ∧
    reassemble_payload (btreeOfSegments (segChunks p 4294967296 4294967313 0))
      = some ((p.drop 4294967296).take 16) := by
  constructor
  · rw [hp]
    simp only [segment_payload]
    rw [if_neg (by omega : ¬ p.length = 0)]
    rw [show (4294967296 : Nat) / 16 * 16 = 4294967296 by norm_num]
    exact segLoop_eq_segChunks p 4294967296 (by norm_num) (4294967312 + 1) 0
      (by omega)
  · rw [segChunks_wrap_shape p hp]
    rfl

/-- C2 counterexample: at the concrete payload of `2^32 + 16` zero bytes and
`max_segment_payload = 2^32 ≥ 16`, the round trip fails: the u32-truncated
offsets of the two segments collide at 0, the later segment overwrites the
earlier in the offset map, and reassembly does not return the payload. -/
theorem segment_reassemble_wrap_counterexample :
    16 ≤ 4294967296 ∧
    (∃ segs,
      segment_payload (List.replicate 4294967312 (0 : Nat)) 4294967296
          ((List.replicate 4294967312 (0 : Nat)).length + 1) = some segs ∧
      reassemble_payload (btreeOfSegments segs)
        ≠ some (List.replicate 4294967312 (0 : Nat))) := by
  have hp : (List.replicate 4294967312 (0 : Nat)).length = 4294967312 := by
    rw [List.length_replicate]
  obtain ⟨h1, h2⟩ := reassemble_wrap_loses_data (List.replicate 4294967312 0) hp
  refine ⟨by norm_num, ⟨_, h1, ?_⟩⟩
  rw [h2]
  intro hcontra
  rw [Option.some.injEq] at hcontra
  have hlen := congrArg List.length hcontra
  rw [List.length_take, List.length_drop, List.length_replicate] at hlen
  omega

end FusionHawking
